import Mathlib

/-!
Verification development for the `nvrsux` URL-shortener (Express + Mongoose,
`index.js` and `middleware/auth.js`).  The mutable MongoDB collection is
modelled as a list of link records in insertion order; each HTTP handler
becomes a pure function from the store (plus its request parameters and the
values drawn from the environment: current time, random draws, configured
admin secret, app domain) to a response together with the updated store.
`findOne` returns the first matching record in store order; a Mongoose
`save()` of a fetched document writes that same document back in place.
-/

namespace NvSU

/-! ## Character and string helpers (JavaScript semantics) -/

/-- Whitespace characters removed by JavaScript `String.prototype.trim`
(the ASCII ones plus NBSP and the BOM; further exotic Unicode space
code points are not modelled — no claim exercises them). -/
def jsWhitespace (c : Char) : Bool :=
  c == '\x20' || c == '\t' || c == '\n' || c == '\r' || c == '\x0b' ||
  c == '\x0c' || c == Char.ofNat 160 || c == Char.ofNat 65279

def trimLeadingWs (cs : List Char) : List Char := cs.dropWhile jsWhitespace

/-- Model of JavaScript `String.prototype.trim`, which Mongoose applies to
fields declared with `trim: true` in the schema. -/
def jsTrimList (cs : List Char) : List Char :=
  ((cs.dropWhile jsWhitespace).reverse.dropWhile jsWhitespace).reverse

def jsTrim (s : String) : String := String.mk (jsTrimList s.data)

/-! ## URL-parser model

`validateUrl` in `index.js` is `try { new URL(url); return true } catch { return false }`.
The definitions below model the acceptance behaviour of the WHATWG URL
constructor with no base URL (the basic URL parser), at the level of detail
the validator exercises:
  * leading/trailing C0-control-or-space is removed, and all interior
    tab/newline characters are stripped;
  * the input must begin with a scheme (`ALPHA (ALPHA|DIGIT|"+"|"-"|".")* ":"`);
  * the special schemes `http`, `https`, `ws`, `wss`, `ftp` require a
    non-empty, well-formed host (any run of `/` and `\` after the colon is
    skipped before the authority, per the special-authority-ignore-slashes
    state); `file` takes an optional host; every other scheme takes an
    opaque path (no host needed) unless the remainder starts with `//`, in
    which case a possibly-empty host is parsed;
  * hosts fail on the standard forbidden host code points, and domains
    (hosts of special schemes) additionally fail on `%`; a trailing
    `:port` must be all digits with value at most 65535.
Not modelled: IPv6 bracket hosts (rejected here; `[` is a forbidden host
code point for the remaining host forms), percent-decoding and IDNA
mapping inside domains.  No claim exercises those inputs. -/

def isC0OrSpace (c : Char) : Bool := c.toNat ≤ 32

def isTabOrNewline (c : Char) : Bool := c == '\t' || c == '\n' || c == '\r'

/-- Input preprocessing of the basic URL parser. -/
def urlPre (s : String) : List Char :=
  (((s.data.dropWhile isC0OrSpace).reverse.dropWhile isC0OrSpace).reverse).filter
    (fun c => !isTabOrNewline c)

def isSchemeStart (c : Char) : Bool := c.isAlpha

def isSchemeChar (c : Char) : Bool :=
  c.isAlpha || c.isDigit || c == '+' || c == '-' || c == '.'

/-- Split off the (lower-cased) scheme and the remainder after the colon. -/
def schemeLoop : List Char → List Char → Option (List Char × List Char)
  | _, [] => none
  | acc, c :: cs =>
    if c == ':' then some (acc.reverse, cs)
    else if isSchemeChar c then schemeLoop (c.toLower :: acc) cs
    else none

def splitScheme (cs : List Char) : Option (List Char × List Char) :=
  match cs with
  | [] => none
  | c :: _ => if isSchemeStart c then schemeLoop [] cs else none

def isSpecialScheme (s : List Char) : Bool :=
  s == "http".data || s == "https".data || s == "ws".data ||
  s == "wss".data || s == "ftp".data || s == "file".data

/-- Special schemes other than `file` demand a non-empty host. -/
def schemeRequiresHost (s : List Char) : Bool :=
  isSpecialScheme s && !(s == "file".data)

/-- Forbidden host code points of the URL standard (tab/newline are already
stripped by preprocessing). -/
def isForbiddenHostChar (c : Char) : Bool :=
  c == '\x00' || c == '\x20' || c == '#' || c == '/' || c == ':' ||
  c == '<' || c == '>' || c == '?' || c == '@' || c == '[' ||
  c == '\\' || c == ']' || c == '^' || c == '|'

/-- The host-and-port part of an authority: everything after the last `@`. -/
def afterLastAt (cs : List Char) : List Char :=
  (cs.reverse.takeWhile (fun c => !(c == '@'))).reverse

def portDigitsOk (p : List Char) : Bool :=
  p.all Char.isDigit &&
    (p.isEmpty || p.foldl (fun n c => n * 10 + (c.toNat - 48)) 0 ≤ 65535)

/-- Parse the host (and optional port) out of an authority; `isDomain` marks
hosts of special schemes, which additionally forbid `%`. -/
def parseHostPort (auth : List Char) (isDomain : Bool) : Option (List Char) :=
  let hostport := afterLastAt auth
  let host := hostport.takeWhile (fun c => !(c == ':'))
  let rest := hostport.dropWhile (fun c => !(c == ':'))
  let portOk : Bool :=
    match rest with
    | [] => true
    | _ :: p => portDigitsOk p
  if host.all (fun c => !(isForbiddenHostChar c || (isDomain && c == '%'))) && portOk then
    some host
  else none

def isSlashChar (c : Char) : Bool := c == '/' || c == '\\'

/-- A Windows drive-letter segment (`c:` or `c|`), which the file-host state
treats as a path, not a host. -/
def segIsDrive (seg : List Char) : Bool :=
  match seg with
  | [c, d] => c.isAlpha && (d == ':' || d == '|')
  | _ => false

/-- Parse the part after the scheme's colon; returns the host on success
(`none` inside the option for opaque-path URLs such as `mailto:` ones). -/
def parseAfterScheme (sch rest : List Char) : Option (Option (List Char)) :=
  if schemeRequiresHost sch then
    match parseHostPort ((rest.dropWhile isSlashChar).takeWhile
        (fun c => !(isSlashChar c || c == '?' || c == '#'))) true with
    | none => none
    | some host => if host.isEmpty then none else some (some host)
  else if sch == "file".data then
    match rest with
    | '/' :: '/' :: rest2 =>
      let seg := rest2.takeWhile (fun c => !(isSlashChar c || c == '?' || c == '#'))
      if segIsDrive seg then some (some [])
      else if seg.all (fun c => !(isForbiddenHostChar c || c == '%')) then
        some (some seg)
      else none
    | _ => some (some [])
  else
    match rest with
    | '/' :: '/' :: rest2 =>
      match parseHostPort (rest2.takeWhile
          (fun c => !(c == '/' || c == '?' || c == '#'))) false with
      | none => none
      | some host => some (some host)
    | _ => some none

/-- Outcome of the modelled URL parse: the scheme, and the host when the URL
has an authority. -/
def parseURLChars (cs : List Char) : Option (List Char × Option (List Char)) :=
  match splitScheme cs with
  | none => none
  | some (sch, rest) =>
    match parseAfterScheme sch rest with
    | none => none
    | some host => some (sch, host)

def parseURL (s : String) : Option (List Char × Option (List Char)) :=
  parseURLChars (urlPre s)

/-- `validateUrl` from `index.js`: `new URL(url)` succeeds (does not throw). -/
def validateUrl (url : String) : Bool := (parseURL url).isSome

/-- The criterion stated by the spec for the URL validator: the string parses
as an absolute URL having both a scheme and a (non-empty) host.  Kept as a
separate definition so it can be compared with `validateUrl`. -/
def specValidUrl (url : String) : Bool :=
  match parseURL url with
  | some (_, some h) => !h.isEmpty
  | _ => false

/-! ## Slug validator and generator -/

def isSlugChar (c : Char) : Bool :=
  c.isAlpha || c.isDigit || c == '_' || c == '-'

/-- `validateSlug` from `index.js`: full-string match of
`^[a-zA-Z0-9_-]\x7b3,50\x7d$`. -/
def validateSlug (slug : String) : Bool :=
  3 ≤ slug.length && slug.length ≤ 50 && slug.data.all isSlugChar

/-- The default nanoid URL alphabet (64 characters). -/
def nanoidUrlAlphabet : List Char :=
  "useandom-26T198340PX75pxJACKVERYMINDBUSHWOLF_GQZbfghjklqvwyzrict".data

/-- Model of `nanoid(size)`: each output position is an independent uniform
draw from the 64-character URL alphabet; `draw i` is the sampled index for
position `i`. -/
def nanoid (size : Nat) (draw : Nat → Nat) : String :=
  String.mk ((List.range size).map (fun i => nanoidUrlAlphabet.getD (draw i % 64) 'u'))

/-- `generateSlug` from `index.js`:
`Math.floor(Math.random() * (8 - 5 + 1)) + 5` picks a length in `[5, 8]`
(`lenDraw` models the sampled value, reduced mod 4), then `nanoid` of that
length. -/
def generateSlug (lenDraw : Nat) (draw : Nat → Nat) : String :=
  nanoid (lenDraw % 4 + 5) draw

/-! ## Data model

The `Url` Mongoose model: one record per shortened link.  `createdAt` is a
timestamp (milliseconds, as a natural number); string fields declared with
`trim: true` are stored trimmed. -/

structure UrlRecord where
  originalUrl : String
  shortSlug : String
  title : String
  description : String
  visits : Nat
  createdAt : Nat
  isActive : Bool
deriving DecidableEq

/-- The MongoDB collection, in insertion (natural) order. -/
abbrev Store := List UrlRecord

/-- `Url.findOne(\x7b shortSlug \x7d)`: first record with the given slug. -/
def findOneBySlug (store : Store) (slug : String) : Option UrlRecord :=
  store.find? (fun r => r.shortSlug == slug)

/-- `Url.findOne(\x7b shortSlug, isActive: true \x7d)`. -/
def findOneActive (store : Store) (slug : String) : Option UrlRecord :=
  store.find? (fun r => r.shortSlug == slug && r.isActive)

/-- Write-back of a fetched-and-mutated document (`doc.save()`): the first
record satisfying the predicate the handler fetched by is replaced. -/
def updateFirstP (p : UrlRecord → Bool) (f : UrlRecord → UrlRecord) : Store → Store
  | [] => []
  | r :: rs => if p r then f r :: rs else r :: updateFirstP p f rs

def updateFirstActive (store : Store) (slug : String) (f : UrlRecord → UrlRecord) : Store :=
  updateFirstP (fun r => r.shortSlug == slug && r.isActive) f store

def updateFirstBySlug (store : Store) (slug : String) (f : UrlRecord → UrlRecord) : Store :=
  updateFirstP (fun r => r.shortSlug == slug) f store

/-- The store invariant enforced by the `unique: true` index on `shortSlug`:
no two records share a slug. -/
def wfStore (store : Store) : Prop := (store.map (fun r => r.shortSlug)).Nodup

instance (store : Store) : Decidable (wfStore store) := by
  unfold wfStore; infer_instance

/-! ## Creation handler (`GET /new`, and the identical `POST /new` body) -/

inductive CreateResult where
  | missingUrl
  | invalidUrl
  | invalidSlugFormat
  | slugTaken
  | generationExhausted
  | created (slug : String)
deriving DecidableEq

/-- JavaScript falsiness of an optional string parameter (`undefined` or `""`). -/
def strFalsy : Option String → Bool
  | none => true
  | some s => s == ""

/-- Models `x || ''` on an optional string parameter. -/
def optOrEmpty : Option String → String
  | none => ""
  | some s => s

/-- A freshly inserted record: `new Url(\x7b... isActive: true\x7d)` with the
schema defaults `visits: 0` and `createdAt: Date.now`, `trim: true` fields
trimmed on save. -/
def mkUrlRecord (url slug title desc : String) (now : Nat) : UrlRecord :=
  { originalUrl := jsTrim url
    shortSlug := jsTrim slug
    title := jsTrim title
    description := jsTrim desc
    visits := 0
    createdAt := now
    isActive := true }

/-- The generated-slug retry loop
(`while (!isUnique && attempts < 5) \x7b shortSlug = generateSlug(); ... \x7d`).
`gen k` is the value returned by the `(k+1)`-th call of `generateSlug()`. -/
def genLoopAux (store : Store) (gen : Nat → String) : Nat → Nat → Option String
  | _, 0 => none
  | attempt, fuel + 1 =>
    if (findOneBySlug store (gen attempt)).isSome then
      genLoopAux store gen (attempt + 1) fuel
    else some (gen attempt)

/-- The retry loop with its bound of 5 attempts. -/
def genLoop5 (store : Store) (gen : Nat → String) : Option String :=
  genLoopAux store gen 0 5

/-- The `GET /new` handler after rate limiting: URL presence and validity
checks, then either the custom-slug path (format validation and existence
check) or the generated-slug retry loop, then the insert. -/
def createHandler (store : Store) (url slugParam title desc : Option String)
    (gen : Nat → String) (now : Nat) : CreateResult × Store :=
  if strFalsy url then (.missingUrl, store)
  else if !validateUrl (url.getD "") then (.invalidUrl, store)
  else if !strFalsy slugParam then
    if !validateSlug (slugParam.getD "") then (.invalidSlugFormat, store)
    else if (findOneBySlug store (slugParam.getD "")).isSome then (.slugTaken, store)
    else (.created (slugParam.getD ""),
      store ++ [mkUrlRecord (url.getD "") (slugParam.getD "")
        (optOrEmpty title) (optOrEmpty desc) now])
  else
    match genLoop5 store gen with
    | none => (.generationExhausted, store)
    | some s =>
      (.created s,
       store ++ [mkUrlRecord (url.getD "") s (optOrEmpty title) (optOrEmpty desc) now])

/-! ## Redirect handler (`GET /r/:slug`) -/

inductive RedirectResult where
  | moved (location : String)
  | notFound
deriving DecidableEq

/-- The redirect handler: active lookup, `visits += 1` followed by `save()`,
then a 301 redirect to `originalUrl`; 404 when no active record matches. -/
def redirectHandler (store : Store) (slug : String) : RedirectResult × Store :=
  match findOneActive store slug with
  | none => (.notFound, store)
  | some r =>
    (.moved r.originalUrl,
     updateFirstActive store slug (fun u => { u with visits := u.visits + 1 }))

/-! ## Soft-delete handler (`GET /delete.py`) -/

inductive DeleteResult where
  | missingSlug
  | notFound
  | deleted (originalUrl : String)
deriving DecidableEq

/-- The delete handler: 400 when the `slug` query parameter is falsy, 404
when no record (active or not) matches, otherwise `isActive = false` plus
`save()` and a success payload. -/
def deleteHandler (store : Store) (slug : Option String) : DeleteResult × Store :=
  if strFalsy slug then (.missingSlug, store)
  else
    match findOneBySlug store (slug.getD "") with
    | none => (.notFound, store)
    | some r =>
      (.deleted r.originalUrl,
       updateFirstBySlug store (slug.getD "") (fun u => { u with isActive := false }))

/-! ## Per-slug stats handler (`GET /stats/:slug`) -/

structure StatsData where
  originalUrl : String
  shortSlug : String
  shortUrl : String
  title : String
  description : String
  visits : Nat
  isActive : Bool
  createdAt : Nat
  lastAccessed : Option Nat
deriving DecidableEq

inductive StatsResult where
  | notFound
  | ok (data : StatsData)
deriving DecidableEq

/-- The stats handler; `now` is the time the response is constructed
(`new Date()` in the handler body). -/
def statsHandler (store : Store) (slug : String) (domain : String) (now : Nat) :
    StatsResult :=
  match findOneBySlug store slug with
  | none => .notFound
  | some r =>
    .ok { originalUrl := r.originalUrl
          shortSlug := r.shortSlug
          shortUrl := domain ++ "/r/" ++ r.shortSlug
          title := r.title
          description := r.description
          visits := r.visits
          isActive := r.isActive
          createdAt := r.createdAt
          lastAccessed := if 0 < r.visits then some now else none }

/-! ## Admin listing (`GET /linksdata`) and `requireAdmin` middleware -/

/-- `requireAdmin` from `middleware/auth.js`: 401 when `req.query.adminKey`
is falsy (absent or the empty string), 403 when it differs from
`process.env.ADMIN_KEY`, otherwise pass. -/
inductive AuthCheck where
  | denied401
  | denied403
  | pass
deriving DecidableEq

def requireAdmin (adminKey : Option String) (secret : String) : AuthCheck :=
  match adminKey with
  | none => .denied401
  | some k => if k == "" then .denied401 else if !(k == secret) then .denied403 else .pass

/-- Model of MongoDB `$regex` matching with the `i` option, for the pattern
language the claims exercise: `.` matches any character except a newline,
and every other character matches itself up to ASCII case.  Patterns using
further PCRE metacharacters (escapes, quantifiers, classes, anchors,
alternation) are outside the model, and the theorems below restrict their
search strings accordingly. -/
def patCore : List Char → List Char → Bool
  | [], _ => true
  | _ :: _, [] => false
  | p :: ps, c :: cs =>
    if p == '.' then !(c == '\n') && patCore ps cs
    else p.toLower == c.toLower && patCore ps cs

/-- Unanchored regex search: the pattern matches at some position. -/
def regexSearch (pat : List Char) : List Char → Bool
  | [] => patCore pat []
  | c :: cs => patCore pat (c :: cs) || regexSearch pat cs

def regexTestCI (pat s : String) : Bool := regexSearch pat.data s.data

/-- The `$or` clause of the `/linksdata` query: the search string, used as a
case-insensitive regex, matches one of the four text fields. -/
def matchesSearch (search : String) (r : UrlRecord) : Bool :=
  regexTestCI search r.originalUrl || regexTestCI search r.shortSlug ||
  regexTestCI search r.title || regexTestCI search r.description

/-- The Mongo query object built by `/linksdata`: an `isActive` equality
filter when `active` is the string `"true"` or `"false"`, and the `$or`
regex search when `search` is non-empty (a falsy search adds no clause). -/
def linksQuery (search active : String) (r : UrlRecord) : Bool :=
  (if active == "true" || active == "false" then r.isActive == (active == "true")
   else true) &&
  (if search == "" then true else matchesSearch search r)

/-- Sort key comparison for `.sort(\x7b [sort]: order \x7d)`: the known
fields compare by their values (numbers numerically, strings
lexicographically); any other field name imposes no order. -/
def fieldLe (field : String) (a b : UrlRecord) : Bool :=
  if field == "createdAt" then a.createdAt ≤ b.createdAt
  else if field == "visits" then a.visits ≤ b.visits
  else if field == "title" then a.title ≤ b.title
  else if field == "originalUrl" then a.originalUrl ≤ b.originalUrl
  else if field == "shortSlug" then a.shortSlug ≤ b.shortSlug
  else if field == "description" then a.description ≤ b.description
  else true

def ordLe (field : String) (desc : Bool) (a b : UrlRecord) : Bool :=
  if desc then fieldLe field b a else fieldLe field a b

/-- Sorting model for the Mongo `.sort()` stage: a permutation of the input
ordered by the requested key (ties in an unspecified order, here the stable
insertion-sort order). -/
def insertSorted (le : UrlRecord → UrlRecord → Bool) (x : UrlRecord) :
    List UrlRecord → List UrlRecord
  | [] => [x]
  | y :: ys => if le x y then x :: y :: ys else y :: insertSorted le x ys

def sortRecords (le : UrlRecord → UrlRecord → Bool) : List UrlRecord → List UrlRecord
  | [] => []
  | x :: xs => insertSorted le x (sortRecords le xs)

structure LinksResponse where
  urls : List UrlRecord
  page : Nat
  limit : Nat
  total : Nat
  totalPages : Nat
  totalUrls : Nat
  activeUrls : Nat
  inactiveUrls : Int
  totalVisits : Nat
deriving DecidableEq

inductive AdminResult where
  | unauthorized
  | forbidden
  | ok (resp : LinksResponse)
deriving DecidableEq

/-- The `/linksdata` handler behind `requireAdmin`.  `page` and `limit` model
the `parseInt`-ed query values (their defaults are 1 and 100); `totalPages`
is `Math.ceil(total / limit)`, which for `limit ≥ 1` is the natural-number
ceiling division written `(total + limit - 1) / limit` (the `limit = 0`
float `Infinity` is outside the model); the float `averageVisits` field is
not modelled.  Statistics are computed over the whole store, the page over
the filtered, sorted records. -/
def linksdataHandler (store : Store) (adminKey : Option String) (secret : String)
    (page limit : Nat) (sortField order search active : String) : AdminResult :=
  match requireAdmin adminKey secret with
  | .denied401 => .unauthorized
  | .denied403 => .forbidden
  | .pass =>
    let matched := store.filter (linksQuery search active)
    let total := matched.length
    let sorted := sortRecords (ordLe sortField (order == "desc")) matched
    let activeRecs := store.filter (fun r => r.isActive)
    .ok { urls := (sorted.drop ((page - 1) * limit)).take limit
          page := page
          limit := limit
          total := total
          totalPages := (total + limit - 1) / limit
          totalUrls := total
          activeUrls := activeRecs.length
          inactiveUrls := (total : Int) - (activeRecs.length : Int)
          totalVisits := (activeRecs.map (fun r => r.visits)).sum }

/-- The spec's criterion for the free-text search: case-insensitive literal
substring containment.  Kept separate from the `$regex` model so the two can
be compared. -/
def startsWithCI : List Char → List Char → Bool
  | [], _ => true
  | _ :: _, [] => false
  | a :: as, b :: bs => a.toLower == b.toLower && startsWithCI as bs

def containsCI (q s : String) : Bool := go q.data s.data
where
  go (q : List Char) : List Char → Bool
    | [] => startsWithCI q []
    | c :: cs => startsWithCI q (c :: cs) || go q cs

/-- The spec-side search predicate of claim C7: some of the four fields
contains the search string literally, case-insensitively. -/
def specMatches (q : String) (r : UrlRecord) : Bool :=
  containsCI q r.originalUrl || containsCI q r.shortSlug ||
  containsCI q r.title || containsCI q r.description

/-- PCRE metacharacters; a search string free of them is matched literally
by `$regex`. -/
def isRegexMeta (c : Char) : Bool :=
  c == '.' || c == '\\' || c == '+' || c == '*' || c == '?' || c == '(' ||
  c == ')' || c == '[' || c == ']' || c == '\x7b' || c == '\x7d' ||
  c == '^' || c == '$' || c == '|'

/-! ## Interleaved redirects (claim C9)

The redirect handler's visit increment is a read-modify-write: it first
fetches the document, then saves it back with `visits` set to one more than
the value it read.  To reason about concurrent requests, one redirect is
split into its two storage operations; a schedule interleaves the steps of
two handlers working on the same slug. -/

inductive RThread where
  | start
  | readDone (snap : UrlRecord)
  | finished
deriving DecidableEq

/-- One storage operation of a redirect handler for `slug`: from `start`,
the active lookup (a miss finishes with the 404 response); from `readDone`,
the `save()` writing back `visits` as the snapshot value plus one. -/
def rStep (slug : String) : RThread × Store → RThread × Store
  | (.start, store) =>
    match findOneActive store slug with
    | some r => (.readDone r, store)
    | none => (.finished, store)
  | (.readDone r, store) =>
    (.finished, updateFirstBySlug store slug (fun u => { u with visits := r.visits + 1 }))
  | (.finished, store) => (.finished, store)

/-- Run two redirect handlers for the same slug under a schedule: `false`
steps the first thread, `true` the second. -/
def runTwo (slug : String) : List Bool → RThread × RThread × Store → RThread × RThread × Store
  | [], st => st
  | b :: rest, (t1, t2, store) =>
    if b then
      let s2 := rStep slug (t2, store)
      runTwo slug rest (t1, s2.1, s2.2)
    else
      let s1 := rStep slug (t1, store)
      runTwo slug rest (s1.1, t2, s1.2)

/-- N sequential (non-overlapping) redirect requests for `slug`. -/
def iterRedirect (slug : String) (store : Store) : Nat → Store
  | 0 => store
  | n + 1 => iterRedirect slug (redirectHandler store slug).2 n

/-! ## Store-mutating operations as a single type (claim C6) -/

inductive Op where
  | createOp (url slugParam title desc : Option String) (gen : Nat → String) (now : Nat)
  | redirectOp (slug : String)
  | deleteOp (slug : Option String)
  | listingOp (adminKey : Option String) (secret : String) (page limit : Nat)
      (sortField order search active : String)
  | statsOp (slug : String) (domain : String) (now : Nat)

/-- Effect of each operation on the store (listing and stats are read-only;
their handlers return responses but never write). -/
def applyOp (store : Store) : Op → Store
  | .createOp url slugParam title desc gen now =>
    (createHandler store url slugParam title desc gen now).2
  | .redirectOp slug => (redirectHandler store slug).2
  | .deleteOp slug => (deleteHandler store slug).2
  | .listingOp _ _ _ _ _ _ _ _ => store
  | .statsOp _ _ _ => store

/-! ## Helper lemmas -/

section Helpers

variable {α : Type}

theorem find?_append_of_none {p : α → Bool} {a : List α} (b : List α)
    (h : a.find? p = none) : (a ++ b).find? p = b.find? p := by
  induction a with
  | nil => rfl
  | cons x xs ih =>
    cases hx : p x with
    | true => simp [List.find?_cons, hx] at h
    | false =>
      simp only [List.cons_append, List.find?_cons, hx] at h ⊢
      exact ih h

theorem find?_decomp {p : α → Bool} :
    ∀ {l : List α} {r : α}, l.find? p = some r →
      ∃ a b, l = a ++ r :: b ∧ (∀ x ∈ a, p x = false) ∧ p r = true := by
  intro l
  induction l with
  | nil => intro r h; simp [List.find?] at h
  | cons x xs ih =>
    intro r h
    cases hx : p x with
    | true =>
      simp only [List.find?_cons, hx] at h
      have hxr : x = r := by injection h
      subst hxr
      refine ⟨[], xs, rfl, ?_, hx⟩
      intro y hy
      exact absurd hy (List.not_mem_nil y)
    | false =>
      simp only [List.find?_cons, hx] at h
      obtain ⟨a, b, hl, ha, hr⟩ := ih h
      refine ⟨x :: a, b, by rw [hl]; rfl, ?_, hr⟩
      intro y hy
      rcases List.mem_cons.mp hy with hy | hy
      · rw [hy]; exact hx
      · exact ha y hy

theorem getq_drop : ∀ (l : List α) (n j : Nat), (l.drop n).get? j = l.get? (n + j) := by
  intro l
  induction l with
  | nil => intro n j; simp
  | cons x xs ih =>
    intro n j
    cases n with
    | zero => simp
    | succ m =>
      simp only [List.drop_succ_cons]
      rw [ih m j]
      have hidx : m + 1 + j = (m + j) + 1 := by omega
      rw [hidx]
      rfl

theorem getq_take : ∀ (l : List α) (n j : Nat), j < n → (l.take n).get? j = l.get? j := by
  intro l
  induction l with
  | nil => intro n j _; simp
  | cons x xs ih =>
    intro n j hj
    cases n with
    | zero => omega
    | succ m =>
      cases j with
      | zero => rfl
      | succ i =>
        simp only [List.take_succ_cons]
        exact ih m i (by omega)

theorem dropWhile_eq_self_of_all {p : α → Bool} {l : List α}
    (h : ∀ c ∈ l, p c = false) : l.dropWhile p = l := by
  cases l with
  | nil => rfl
  | cons x xs =>
    rw [List.dropWhile_cons, h x (List.mem_cons_self x xs)]
    simp

end Helpers

/-- Natural-number ceiling division, as computed by
`Math.ceil(total / limit)` for a positive `limit`: `(t + l - 1) / l` is the
least `m` with `t ≤ m * l`. -/
theorem ceil_div_spec (t l : Nat) (hl : 1 ≤ l) :
    t ≤ ((t + l - 1) / l) * l ∧ ∀ m, t ≤ m * l → (t + l - 1) / l ≤ m := by
  constructor
  · have h := (Nat.div_le_iff_le_mul_add_pred (a := t + l - 1)
      (c := (t + l - 1) / l) (by omega)).mp (Nat.le_refl _)
    have := Nat.mul_comm l ((t + l - 1) / l)
    omega
  · intro m hm
    rw [Nat.div_le_iff_le_mul_add_pred (by omega)]
    have := Nat.mul_comm l m
    omega

/-! ### Trimming and the slug alphabet -/

theorem ws_not_slugChar : ∀ c : Char, jsWhitespace c = true → isSlugChar c = false := by
  intro c h
  simp only [jsWhitespace, Bool.or_eq_true, beq_iff_eq] at h
  have h2 : c = '\x20' ∨ c = '\t' ∨ c = '\n' ∨ c = '\x0d' ∨ c = '\x0b' ∨
      c = '\x0c' ∨ c = Char.ofNat 160 ∨ c = Char.ofNat 65279 := by tauto
  rcases h2 with h2 | h2 | h2 | h2 | h2 | h2 | h2 | h2 <;> rw [h2] <;> decide

theorem jsTrimList_eq_self {cs : List Char}
    (h : ∀ c ∈ cs, jsWhitespace c = false) : jsTrimList cs = cs := by
  unfold jsTrimList
  rw [dropWhile_eq_self_of_all h]
  rw [dropWhile_eq_self_of_all (fun c hc => h c (List.mem_reverse.mp hc))]
  exact List.reverse_reverse cs

theorem jsTrim_eq_self {s : String}
    (h : ∀ c ∈ s.data, jsWhitespace c = false) : jsTrim s = s := by
  unfold jsTrim
  rw [jsTrimList_eq_self h]

theorem jsTrim_of_slug_safe {s : String}
    (h : ∀ c ∈ s.data, isSlugChar c = true) : jsTrim s = s := by
  apply jsTrim_eq_self
  intro c hc
  cases hw : jsWhitespace c with
  | false => rfl
  | true =>
    have hns := ws_not_slugChar c hw
    rw [h c hc] at hns
    exact absurd hns (by decide)

theorem nanoidUrlAlphabet_all_slug : nanoidUrlAlphabet.all isSlugChar = true := by decide

theorem nanoidUrlAlphabet_length : nanoidUrlAlphabet.length = 64 := by decide

theorem nanoid_length (n : Nat) (draw : Nat → Nat) : (nanoid n draw).length = n := by
  simp [nanoid, String.length]

theorem nanoid_chars (n : Nat) (draw : Nat → Nat) :
    ∀ c ∈ (nanoid n draw).data, isSlugChar c = true := by
  intro c hc
  simp only [nanoid, List.mem_map] at hc
  obtain ⟨i, _, hi⟩ := hc
  rw [← hi]
  have hlt : draw i % 64 < nanoidUrlAlphabet.length := by
    rw [nanoidUrlAlphabet_length]; exact Nat.mod_lt _ (by omega)
  rw [List.getD_eq_getElem _ _ hlt]
  exact List.all_eq_true.mp nanoidUrlAlphabet_all_slug _ (List.getElem_mem hlt)

theorem generateSlug_length (lenDraw : Nat) (draw : Nat → Nat) :
    5 ≤ (generateSlug lenDraw draw).length ∧ (generateSlug lenDraw draw).length ≤ 8 := by
  unfold generateSlug
  rw [nanoid_length]
  have : lenDraw % 4 < 4 := Nat.mod_lt _ (by omega)
  omega

theorem generateSlug_chars (lenDraw : Nat) (draw : Nat → Nat) :
    (generateSlug lenDraw draw).data.all isSlugChar = true :=
  List.all_eq_true.mpr (nanoid_chars _ draw)

/-! ### URL-parser invariant: special non-file schemes carry a host -/

theorem parseURLChars_requiresHost {cs sch : List Char}
    {host : Option (List Char)} (h : parseURLChars cs = some (sch, host))
    (hreq : schemeRequiresHost sch = true) :
    ∃ hst, host = some hst ∧ hst ≠ [] := by
  unfold parseURLChars at h
  cases hsp : splitScheme cs with
  | none => rw [hsp] at h; exact absurd h (by simp)
  | some p =>
    obtain ⟨sch0, rest⟩ := p
    rw [hsp] at h
    dsimp only at h
    cases hpa : parseAfterScheme sch0 rest with
    | none => rw [hpa] at h; exact absurd h (by simp)
    | some host0 =>
      rw [hpa] at h
      simp only [Option.some.injEq, Prod.mk.injEq] at h
      obtain ⟨h1, h2⟩ := h
      subst h1
      subst h2
      unfold parseAfterScheme at hpa
      rw [if_pos hreq] at hpa
      cases hhp : parseHostPort ((rest.dropWhile isSlashChar).takeWhile
          (fun c => !(isSlashChar c || c == '?' || c == '#'))) true with
      | none => rw [hhp] at hpa; exact absurd hpa (by simp)
      | some hst =>
        rw [hhp] at hpa
        dsimp only at hpa
        by_cases he : hst.isEmpty = true
        · rw [if_pos he] at hpa; exact absurd hpa (by simp)
        · rw [if_neg he] at hpa
          have h3 : some hst = host0 := by injection hpa
          refine ⟨hst, h3.symm, ?_⟩
          intro hnil
          rw [hnil] at he
          exact he rfl

/-! ### Store lemmas -/

theorem find?_prefix_false {α : Type} {p : α → Bool} {a : List α}
    (hb : ∀ x ∈ a, p x = false) (l : List α) : (a ++ l).find? p = l.find? p :=
  find?_append_of_none l (List.find?_eq_none.mpr
    (fun x hx h => by rw [hb x hx] at h; exact Bool.false_ne_true h))

theorem find?_middle_false {α : Type} {p : α → Bool} :
    ∀ (a : List α) {x : α}, p x = false → ∀ b : List α,
      (a ++ x :: b).find? p = (a ++ b).find? p := by
  intro a
  induction a with
  | nil =>
    intro x hx b
    simp only [List.nil_append, List.find?_cons, hx]
  | cons y ys ih =>
    intro x hx b
    simp only [List.cons_append, List.find?_cons]
    cases hy : p y with
    | true => rfl
    | false => exact ih hx b

theorem findOneBySlug_decomp {store : Store} {s : String} {r : UrlRecord}
    (h : findOneBySlug store s = some r) :
    ∃ a b, store = a ++ r :: b ∧ (∀ x ∈ a, (x.shortSlug == s) = false) ∧
      r.shortSlug = s := by
  obtain ⟨a, b, hl, ha, hr⟩ := find?_decomp h
  exact ⟨a, b, hl, ha, by simpa [beq_iff_eq] using hr⟩

theorem wf_no_dup_slug {a b : List UrlRecord} {r : UrlRecord}
    (hwf : wfStore (a ++ r :: b)) :
    ∀ x ∈ a ++ b, (x.shortSlug == r.shortSlug) = false := by
  unfold wfStore at hwf
  rw [List.map_append, List.map_cons] at hwf
  rcases List.nodup_append.mp hwf with ⟨_, hnrb, hdisj⟩
  have hnotb : r.shortSlug ∉ b.map (fun x => x.shortSlug) :=
    (List.nodup_cons.mp hnrb).1
  have hnota : r.shortSlug ∉ a.map (fun x => x.shortSlug) := by
    intro hmem
    exact hdisj hmem (List.mem_cons_self _ _)
  intro x hx
  rw [beq_eq_false_iff_ne]
  intro heq
  rcases List.mem_append.mp hx with hx | hx
  · exact hnota (List.mem_map.mpr ⟨x, hx, heq⟩)
  · exact hnotb (List.mem_map.mpr ⟨x, hx, heq⟩)

theorem updateFirstP_of_prefix {p : UrlRecord → Bool} {f : UrlRecord → UrlRecord} :
    ∀ {a : List UrlRecord}, (∀ x ∈ a, p x = false) → ∀ {r : UrlRecord}, p r = true →
      ∀ b : List UrlRecord, updateFirstP p f (a ++ r :: b) = a ++ f r :: b := by
  intro a
  induction a with
  | nil =>
    intro _ r hr b
    simp [updateFirstP, hr]
  | cons x xs ih =>
    intro hb r hr b
    have hx := hb x (List.mem_cons_self x xs)
    simp only [List.cons_append, updateFirstP, hx, Bool.false_eq_true, if_false]
    exact congrArg (x :: ·) (ih (fun y hy => hb y (List.mem_cons_of_mem x hy)) hr b)

theorem updateFirstP_of_none {p : UrlRecord → Bool} {f : UrlRecord → UrlRecord} :
    ∀ {l : Store}, l.find? p = none → updateFirstP p f l = l := by
  intro l
  induction l with
  | nil => intro _; rfl
  | cons x xs ih =>
    intro h
    cases hx : p x with
    | true => simp [List.find?_cons, hx] at h
    | false =>
      simp only [List.find?_cons, hx] at h
      simp only [updateFirstP, hx, Bool.false_eq_true, if_false]
      exact congrArg (x :: ·) (ih h)

theorem updateFirstP_get? {p : UrlRecord → Bool} {f : UrlRecord → UrlRecord} :
    ∀ (l : Store) (i : Nat),
      (updateFirstP p f l).get? i = l.get? i ∨
      ∃ r, l.get? i = some r ∧ p r = true ∧ (updateFirstP p f l).get? i = some (f r) := by
  intro l
  induction l with
  | nil => intro i; left; rfl
  | cons x xs ih =>
    intro i
    cases hx : p x with
    | true =>
      simp only [updateFirstP, hx, if_true]
      cases i with
      | zero => right; exact ⟨x, rfl, hx, rfl⟩
      | succ n => left; rfl
    | false =>
      simp only [updateFirstP, hx, Bool.false_eq_true, if_false]
      cases i with
      | zero => left; rfl
      | succ n => exact ih n

theorem updateFirstP_map_slug {p : UrlRecord → Bool} {f : UrlRecord → UrlRecord}
    (hf : ∀ x, (f x).shortSlug = x.shortSlug) :
    ∀ l : Store, (updateFirstP p f l).map (fun x => x.shortSlug) =
      l.map (fun x => x.shortSlug) := by
  intro l
  induction l with
  | nil => rfl
  | cons x xs ih =>
    cases hx : p x with
    | true => simp [updateFirstP, hx, hf]
    | false => simp [updateFirstP, hx, ih]

theorem updateFirstP_length {p : UrlRecord → Bool} {f : UrlRecord → UrlRecord} :
    ∀ l : Store, (updateFirstP p f l).length = l.length := by
  intro l
  induction l with
  | nil => rfl
  | cons x xs ih =>
    cases hx : p x with
    | true => simp [updateFirstP, hx]
    | false => simp [updateFirstP, hx, ih]

/-! ### Generated-slug retry-loop lemmas -/

theorem genLoopAux_none {store : Store} {gen : Nat → String} :
    ∀ (fuel attempt : Nat),
      (∀ j, j < fuel → (findOneBySlug store (gen (attempt + j))).isSome = true) →
      genLoopAux store gen attempt fuel = none := by
  intro fuel
  induction fuel with
  | zero => intro attempt _; rfl
  | succ n ih =>
    intro attempt h
    have h0 := h 0 (by omega)
    rw [Nat.add_zero] at h0
    simp only [genLoopAux, h0, if_true]
    exact ih (attempt + 1) (fun j hj => by
      have := h (j + 1) (by omega)
      rwa [show attempt + (j + 1) = attempt + 1 + j by omega] at this)

theorem genLoopAux_some {store : Store} {gen : Nat → String} :
    ∀ (fuel attempt k : Nat), k < fuel →
      (∀ j, j < k → (findOneBySlug store (gen (attempt + j))).isSome = true) →
      (findOneBySlug store (gen (attempt + k))).isSome = false →
      genLoopAux store gen attempt fuel = some (gen (attempt + k)) := by
  intro fuel
  induction fuel with
  | zero => intro attempt k hk _ _; omega
  | succ n ih =>
    intro attempt k hk hcoll hfresh
    cases k with
    | zero =>
      rw [Nat.add_zero] at hfresh
      simp only [genLoopAux, hfresh, Bool.false_eq_true, if_false]
      rw [Nat.add_zero]
    | succ m =>
      have h0 := hcoll 0 (by omega)
      rw [Nat.add_zero] at h0
      simp only [genLoopAux, h0, if_true]
      have hm := ih (attempt + 1) m (by omega)
        (fun j hj => by
          have := hcoll (j + 1) (by omega)
          rwa [show attempt + (j + 1) = attempt + 1 + j by omega] at this)
        (by rwa [show attempt + (m + 1) = attempt + 1 + m by omega] at hfresh)
      rw [hm, show attempt + 1 + m = attempt + (m + 1) by omega]

theorem genLoopAux_congr {store : Store} {g1 g2 : Nat → String} :
    ∀ (fuel attempt : Nat),
      (∀ j, j < fuel → g1 (attempt + j) = g2 (attempt + j)) →
      genLoopAux store g1 attempt fuel = genLoopAux store g2 attempt fuel := by
  intro fuel
  induction fuel with
  | zero => intro attempt _; rfl
  | succ n ih =>
    intro attempt h
    have h0 := h 0 (by omega)
    rw [Nat.add_zero] at h0
    simp only [genLoopAux, h0]
    cases hf : (findOneBySlug store (g2 attempt)).isSome with
    | true =>
      simp only [if_true]
      exact ih (attempt + 1) (fun j hj => by
        have := h (j + 1) (by omega)
        rwa [show attempt + (j + 1) = attempt + 1 + j by omega] at this)
    | false => simp only [Bool.false_eq_true, if_false]

/-! ### Literal-pattern regex search equals substring containment -/

theorem patCore_litOnly :
    ∀ (pat : List Char), (∀ c ∈ pat, isRegexMeta c = false) →
      ∀ cs, patCore pat cs = startsWithCI pat cs := by
  intro pat
  induction pat with
  | nil => intro _ cs; cases cs <;> rfl
  | cons p ps ih =>
    intro h cs
    have hp := h p (List.mem_cons_self p ps)
    have hpd : (p == '.') = false := by
      cases hpe : (p == '.') with
      | false => rfl
      | true =>
        rw [eq_of_beq hpe] at hp
        exact absurd hp (by decide)
    cases cs with
    | nil => rfl
    | cons c cs2 =>
      have hstep : patCore (p :: ps) (c :: cs2) =
          (if p == '.' then !(c == '\n') && patCore ps cs2
           else p.toLower == c.toLower && patCore ps cs2) := rfl
      rw [hstep, hpd]
      simp only [Bool.false_eq_true, if_false, startsWithCI]
      rw [ih (fun x hx => h x (List.mem_cons_of_mem p hx)) cs2]

theorem regexSearch_litOnly (pat : List Char)
    (h : ∀ c ∈ pat, isRegexMeta c = false) :
    ∀ cs, regexSearch pat cs = containsCI.go pat cs := by
  intro cs
  induction cs with
  | nil =>
    simp only [regexSearch, containsCI.go]
    exact patCore_litOnly pat h []
  | cons c cs2 ih =>
    simp only [regexSearch, containsCI.go]
    rw [patCore_litOnly pat h (c :: cs2), ih]

theorem matchesSearch_litOnly (q : String) (r : UrlRecord)
    (h : ∀ c ∈ q.data, isRegexMeta c = false) :
    matchesSearch q r = specMatches q r := by
  unfold matchesSearch specMatches regexTestCI containsCI
  rw [regexSearch_litOnly q.data h, regexSearch_litOnly q.data h,
    regexSearch_litOnly q.data h, regexSearch_litOnly q.data h]

theorem containsCI_nil_left (s : String) : containsCI "" s = true := by
  unfold containsCI
  cases hs : s.data with
  | nil => rfl
  | cons c cs => simp [containsCI.go, startsWithCI]

/-! ### Sorting-model lemmas -/

theorem mem_insertSorted {le : UrlRecord → UrlRecord → Bool} {x : UrlRecord} :
    ∀ {l : List UrlRecord} {y : UrlRecord},
      y ∈ insertSorted le x l ↔ y = x ∨ y ∈ l := by
  intro l
  induction l with
  | nil => intro y; simp [insertSorted]
  | cons z zs ih =>
    intro y
    simp only [insertSorted]
    cases hle : le x z with
    | true => simp [List.mem_cons]
    | false =>
      simp only [Bool.false_eq_true, if_false, List.mem_cons, ih]
      tauto

theorem mem_sortRecords {le : UrlRecord → UrlRecord → Bool} :
    ∀ {l : List UrlRecord} {y : UrlRecord}, y ∈ sortRecords le l ↔ y ∈ l := by
  intro l
  induction l with
  | nil => intro y; rfl
  | cons z zs ih =>
    intro y
    simp only [sortRecords, mem_insertSorted, List.mem_cons, ih]

theorem length_insertSorted {le : UrlRecord → UrlRecord → Bool} {x : UrlRecord} :
    ∀ l : List UrlRecord, (insertSorted le x l).length = l.length + 1 := by
  intro l
  induction l with
  | nil => rfl
  | cons z zs ih =>
    simp only [insertSorted]
    cases hle : le x z with
    | true => rfl
    | false => simp [ih]

theorem length_sortRecords {le : UrlRecord → UrlRecord → Bool} :
    ∀ l : List UrlRecord, (sortRecords le l).length = l.length := by
  intro l
  induction l with
  | nil => rfl
  | cons z zs ih => simp [sortRecords, length_insertSorted, ih]

/-! ### Redirect and soft-delete step lemmas -/

theorem redirect_hit {store : Store} {s : String} {r : UrlRecord}
    (hwf : wfStore store) (h : findOneBySlug store s = some r)
    (ha : r.isActive = true) :
    redirectHandler store s =
      (.moved r.originalUrl,
       updateFirstActive store s (fun u => { u with visits := u.visits + 1 })) ∧
    findOneBySlug (redirectHandler store s).2 s =
      some { r with visits := r.visits + 1 } ∧
    findOneActive (redirectHandler store s).2 s =
      some { r with visits := r.visits + 1 } ∧
    (∀ t, ¬ t = s → findOneBySlug (redirectHandler store s).2 t = findOneBySlug store t) ∧
    ((redirectHandler store s).2.map (fun x => x.visits)).sum
      = (store.map (fun x => x.visits)).sum + 1 ∧
    wfStore (redirectHandler store s).2 := by
  obtain ⟨a, b, hl, hafalse, hslug⟩ := findOneBySlug_decomp h
  subst hl
  have hrest := wf_no_dup_slug hwf
  have haq : ∀ x ∈ a, (x.shortSlug == s && x.isActive) = false := by
    intro x hx
    rw [hafalse x hx]
    rfl
  have hq : (r.shortSlug == s && r.isActive) = true := by
    rw [ha, hslug]
    simp
  have hfind : findOneActive (a ++ r :: b) s = some r := by
    unfold findOneActive
    rw [find?_prefix_false haq]
    simp [List.find?_cons, hq]
  have hhandler : redirectHandler (a ++ r :: b) s =
      (.moved r.originalUrl,
       updateFirstActive (a ++ r :: b) s (fun u => { u with visits := u.visits + 1 })) := by
    unfold redirectHandler
    rw [hfind]
  have hupd : updateFirstActive (a ++ r :: b) s (fun u => { u with visits := u.visits + 1 })
      = a ++ { r with visits := r.visits + 1 } :: b := by
    unfold updateFirstActive
    exact updateFirstP_of_prefix haq hq b
  have hsnd : (redirectHandler (a ++ r :: b) s).2
      = a ++ { r with visits := r.visits + 1 } :: b := by
    rw [hhandler]
    exact hupd
  refine ⟨hhandler, ?_, ?_, ?_, ?_, ?_⟩
  · rw [hsnd]
    unfold findOneBySlug
    rw [find?_prefix_false hafalse]
    have : (({ r with visits := r.visits + 1 } : UrlRecord).shortSlug == s) = true := by
      simp [hslug]
    simp [List.find?_cons, this]
  · rw [hsnd]
    unfold findOneActive
    have haq2 : ∀ x ∈ a, (x.shortSlug == s && x.isActive) = false := haq
    rw [find?_prefix_false haq2]
    have : (({ r with visits := r.visits + 1 } : UrlRecord).shortSlug == s &&
        ({ r with visits := r.visits + 1 } : UrlRecord).isActive) = true := by
      simp [hslug, ha]
    simp [List.find?_cons, this]
  · intro t ht
    rw [hsnd]
    unfold findOneBySlug
    have hr1 : (({ r with visits := r.visits + 1 } : UrlRecord).shortSlug == t) = false := by
      show (r.shortSlug == t) = false
      rw [hslug]
      exact beq_eq_false_iff_ne.mpr (fun he => ht he.symm)
    have hr2 : ((r : UrlRecord).shortSlug == t) = false := by
      rw [hslug]
      exact beq_eq_false_iff_ne.mpr (fun he => ht he.symm)
    rw [find?_middle_false a hr1 b, find?_middle_false a hr2 b]
  · rw [hsnd]
    simp only [List.map_append, List.map_cons, List.sum_append, List.sum_cons]
    omega
  · rw [hsnd]
    unfold wfStore at hwf ⊢
    simpa using hwf

theorem findOneActive_none_of_inactive {store : Store} {s : String} {r : UrlRecord}
    (hwf : wfStore store) (h : findOneBySlug store s = some r)
    (ha : r.isActive = false) : findOneActive store s = none := by
  obtain ⟨a, b, hl, hafalse, hslug⟩ := findOneBySlug_decomp h
  subst hl
  have hrest := wf_no_dup_slug hwf
  apply List.find?_eq_none.mpr
  intro x hx hq
  rw [Bool.and_eq_true] at hq
  rcases List.mem_append.mp hx with hx | hx
  · rw [hafalse x hx] at hq
    exact Bool.false_ne_true hq.1
  · rcases List.mem_cons.mp hx with hx | hx
    · rw [hx, ha] at hq
      exact Bool.false_ne_true hq.2
    · have := hrest x (List.mem_append.mpr (Or.inr hx))
      rw [hslug] at this
      rw [this] at hq
      exact Bool.false_ne_true hq.1

theorem findOneActive_none_of_none {store : Store} {s : String}
    (h : findOneBySlug store s = none) : findOneActive store s = none := by
  apply List.find?_eq_none.mpr
  intro x hx hq
  rw [Bool.and_eq_true] at hq
  exact (List.find?_eq_none.mp h x hx) hq.1

theorem delete_hit {store : Store} {s : String} {r : UrlRecord}
    (hwf : wfStore store) (hs : ¬ s = "")
    (h : findOneBySlug store s = some r) :
    deleteHandler store (some s) =
      (.deleted r.originalUrl,
       updateFirstBySlug store s (fun u => { u with isActive := false })) ∧
    findOneBySlug (deleteHandler store (some s)).2 s =
      some { r with isActive := false } ∧
    findOneActive (deleteHandler store (some s)).2 s = none ∧
    (∀ t, ¬ t = s →
      findOneBySlug (deleteHandler store (some s)).2 t = findOneBySlug store t) ∧
    (deleteHandler store (some s)).2.map (fun x => x.visits)
      = store.map (fun x => x.visits) ∧
    wfStore (deleteHandler store (some s)).2 := by
  have hfalsy : strFalsy (some s) = false := by
    simp [strFalsy, beq_eq_false_iff_ne.mpr hs]
  obtain ⟨a, b, hl, hafalse, hslug⟩ := findOneBySlug_decomp h
  subst hl
  have hrest := wf_no_dup_slug hwf
  have hq : (r.shortSlug == s) = true := by rw [hslug]; exact beq_self_eq_true s
  have hhandler : deleteHandler (a ++ r :: b) (some s) =
      (.deleted r.originalUrl,
       updateFirstBySlug (a ++ r :: b) s (fun u => { u with isActive := false })) := by
    unfold deleteHandler
    rw [hfalsy]
    rw [show (some s).getD "" = s from rfl, h]
    rfl
  have hupd : updateFirstBySlug (a ++ r :: b) s (fun u => { u with isActive := false })
      = a ++ { r with isActive := false } :: b := by
    unfold updateFirstBySlug
    exact updateFirstP_of_prefix hafalse hq b
  have hsnd : (deleteHandler (a ++ r :: b) (some s)).2
      = a ++ { r with isActive := false } :: b := by
    rw [hhandler]
    exact hupd
  refine ⟨hhandler, ?_, ?_, ?_, ?_, ?_⟩
  · rw [hsnd]
    unfold findOneBySlug
    rw [find?_prefix_false hafalse]
    have : (({ r with isActive := false } : UrlRecord).shortSlug == s) = true := by
      show (r.shortSlug == s) = true
      rw [hslug]
      exact beq_self_eq_true s
    simp [List.find?_cons, this]
  · rw [hsnd]
    apply List.find?_eq_none.mpr
    intro x hx hq2
    rw [Bool.and_eq_true] at hq2
    rcases List.mem_append.mp hx with hx | hx
    · rw [hafalse x hx] at hq2
      exact Bool.false_ne_true hq2.1
    · rcases List.mem_cons.mp hx with hx | hx
      · rw [hx] at hq2
        exact Bool.false_ne_true hq2.2
      · have := hrest x (List.mem_append.mpr (Or.inr hx))
        rw [hslug] at this
        rw [this] at hq2
        exact Bool.false_ne_true hq2.1
  · intro t ht
    rw [hsnd]
    unfold findOneBySlug
    have hr1 : (({ r with isActive := false } : UrlRecord).shortSlug == t) = false := by
      show (r.shortSlug == t) = false
      rw [hslug]
      exact beq_eq_false_iff_ne.mpr (fun he => ht he.symm)
    have hr2 : ((r : UrlRecord).shortSlug == t) = false := by
      rw [hslug]
      exact beq_eq_false_iff_ne.mpr (fun he => ht he.symm)
    rw [find?_middle_false a hr1 b, find?_middle_false a hr2 b]
  · rw [hsnd]
    simp
  · rw [hsnd]
    unfold wfStore at hwf ⊢
    simpa using hwf

theorem delete_miss {store : Store} {s : String} (hs : ¬ s = "")
    (h : findOneBySlug store s = none) :
    deleteHandler store (some s) = (.notFound, store) := by
  have hfalsy : strFalsy (some s) = false := by
    simp [strFalsy, beq_eq_false_iff_ne.mpr hs]
  unfold deleteHandler
  rw [hfalsy]
  rw [show (some s).getD "" = s from rfl, h]
  rfl

/-! ### Creation-handler reduction lemmas -/

theorem getq_append {α : Type} :
    ∀ (a b : List α) (i : Nat),
      (a ++ b).get? i = if i < a.length then a.get? i else b.get? (i - a.length) := by
  intro a
  induction a with
  | nil => intro b i; simp
  | cons x xs ih =>
    intro b i
    cases i with
    | zero => simp
    | succ n =>
      simp only [List.cons_append, List.length_cons]
      show (xs ++ b).get? n = _
      rw [ih b n]
      by_cases hn : n < xs.length
      · rw [if_pos hn, if_pos (by omega)]
        rfl
      · rw [if_neg hn, if_neg (by omega)]
        have hsub : n + 1 - (xs.length + 1) = n - xs.length := by omega
        rw [hsub]

theorem createHandler_custom_invalid {store : Store} {u s : String}
    {title desc : Option String} {gen : Nat → String} {now : Nat}
    (hu : ¬ u = "") (huv : validateUrl u = true)
    (hs : ¬ s = "") (hbad : validateSlug s = false) :
    createHandler store (some u) (some s) title desc gen now =
      (.invalidSlugFormat, store) := by
  simp [createHandler, strFalsy, huv, hbad,
    beq_eq_false_iff_ne.mpr hu, beq_eq_false_iff_ne.mpr hs]

theorem createHandler_custom_valid {store : Store} {u s : String}
    {title desc : Option String} {gen : Nat → String} {now : Nat}
    (hu : ¬ u = "") (huv : validateUrl u = true)
    (hs : ¬ s = "") (hok : validateSlug s = true)
    (hfresh : findOneBySlug store s = none) :
    createHandler store (some u) (some s) title desc gen now =
      (.created s,
       store ++ [mkUrlRecord u s (optOrEmpty title) (optOrEmpty desc) now]) := by
  simp [createHandler, strFalsy, huv, hok, hfresh,
    beq_eq_false_iff_ne.mpr hu, beq_eq_false_iff_ne.mpr hs]

theorem createHandler_generated {store : Store} {u : String}
    {title desc : Option String} {gen : Nat → String} {now : Nat}
    (hu : ¬ u = "") (huv : validateUrl u = true) :
    createHandler store (some u) none title desc gen now =
      (match genLoop5 store gen with
       | none => (.generationExhausted, store)
       | some s =>
         (.created s,
          store ++ [mkUrlRecord u s (optOrEmpty title) (optOrEmpty desc) now])) := by
  simp [createHandler, strFalsy, huv, beq_eq_false_iff_ne.mpr hu]

theorem createHandler_store_cases (store : Store) (url sp title desc : Option String)
    (gen : Nat → String) (now : Nat) :
    (createHandler store url sp title desc gen now).2 = store ∨
    ∃ u s, (createHandler store url sp title desc gen now).2 =
      store ++ [mkUrlRecord u s (optOrEmpty title) (optOrEmpty desc) now] := by
  unfold createHandler
  split
  · left; rfl
  · split
    · left; rfl
    · split
      · split
        · left; rfl
        · split
          · left; rfl
          · right; exact ⟨_, _, rfl⟩
      · split
        · left; rfl
        · right; exact ⟨_, _, rfl⟩

/-! ## Claim theorems -/

/-- C1: for every slug `s`, a redirect request against a store containing an
active record for `s` responds with a 301 redirect to that record's
`originalUrl` and increments exactly that record's visits by 1: the record
re-reads with `visits + 1`, lookups of every other slug are unchanged, and
the store-wide visit total rises by exactly 1.  If no record for `s` exists,
or the record exists but is inactive, the handler responds 404 and leaves
the store unchanged. -/
theorem C1_redirect_contract (store : Store) (s : String) (hwf : wfStore store) :
    (∀ r, findOneBySlug store s = some r → r.isActive = true →
      redirectHandler store s =
        (.moved r.originalUrl,
         updateFirstActive store s (fun u => { u with visits := u.visits + 1 })) ∧
      findOneBySlug (redirectHandler store s).2 s =
        some { r with visits := r.visits + 1 } ∧
      (∀ t, ¬ t = s →
        findOneBySlug (redirectHandler store s).2 t = findOneBySlug store t) ∧
      ((redirectHandler store s).2.map (fun x => x.visits)).sum
        = (store.map (fun x => x.visits)).sum + 1) ∧
    (∀ r, findOneBySlug store s = some r → r.isActive = false →
      redirectHandler store s = (.notFound, store)) ∧
    (findOneBySlug store s = none →
      redirectHandler store s = (.notFound, store)) := by
  refine ⟨?_, ?_, ?_⟩
  · intro r h ha
    obtain ⟨h1, h2, _, h4, h5, _⟩ := redirect_hit hwf h ha
    exact ⟨h1, h2, h4, h5⟩
  · intro r h ha
    have hn := findOneActive_none_of_inactive hwf h ha
    unfold redirectHandler
    rw [hn]
  · intro h
    have hn := findOneActive_none_of_none h
    unfold redirectHandler
    rw [hn]

/-- Witness for C1 at a concrete one-record store: the redirect responds 301
to the stored URL and the store re-reads with the visit count incremented. -/
theorem C1_redirect_contract_witness :
    redirectHandler
      [{ originalUrl := "https://example.com", shortSlug := "abc", title := "",
         description := "", visits := 0, createdAt := 0, isActive := true }] "abc" =
      (.moved "https://example.com",
       [{ originalUrl := "https://example.com", shortSlug := "abc", title := "",
          description := "", visits := 1, createdAt := 0, isActive := true }]) := by
  have h := (C1_redirect_contract
    [{ originalUrl := "https://example.com", shortSlug := "abc", title := "",
       description := "", visits := 0, createdAt := 0, isActive := true }] "abc"
    (by decide)).1
    { originalUrl := "https://example.com", shortSlug := "abc", title := "",
      description := "", visits := 0, createdAt := 0, isActive := true } rfl rfl
  rw [h.1]
  rfl

/-- C2 counterexample: the empty string fails the slug regex, yet a creation
request supplying `slug=""` (with a perfectly valid URL) does not fail with
`InvalidSlugFormat`: the handler treats the falsy slug as absent, takes the
generated path, and inserts a record. -/
theorem C2_counterexample :
    validateSlug "" = false ∧
    createHandler [] (some "https://example.com") (some "") none none
      (fun _ => "uuuuu") 0 =
      (.created "uuuuu",
       [{ originalUrl := "https://example.com", shortSlug := "uuuuu", title := "",
          description := "", visits := 0, createdAt := 0, isActive := true }]) := by
  constructor
  · rfl
  · rfl

/-- C2 (amended): for every creation request whose URL is present and valid
and whose custom slug is a non-empty string failing the regex, creation
fails with `InvalidSlugFormat` and the store is unchanged.  (The empty
string, being falsy in JavaScript, is treated as no custom slug and takes
the generated-slug path instead.) -/
theorem C2_invalid_slug_rejected (store : Store) (u s : String)
    (title desc : Option String) (gen : Nat → String) (now : Nat)
    (hu : ¬ u = "") (huv : validateUrl u = true) (hs : ¬ s = "")
    (hbad : validateSlug s = false) :
    createHandler store (some u) (some s) title desc gen now =
      (.invalidSlugFormat, store) :=
  createHandler_custom_invalid hu huv hs hbad

/-- Witness for the amended C2: the too-short slug `"ab"` is rejected with
`InvalidSlugFormat` and nothing is inserted. -/
theorem C2_invalid_slug_rejected_witness :
    createHandler [] (some "https://example.com") (some "ab") none none
      (fun _ => "x") 0 = (.invalidSlugFormat, []) :=
  C2_invalid_slug_rejected [] "https://example.com" "ab" none none (fun _ => "x") 0
    (by decide) rfl (by decide) rfl

/-- C5: for every non-empty slug `s` (an empty `slug` query value is the
separate missing-parameter 400 branch), soft-delete sets `isActive = false`
on the record for `s` if one exists — regardless of its current active
state, so re-deleting an already-inactive record succeeds the same way —
and fails with 404, store unchanged, when no record exists.  After a
successful soft-delete, redirecting `s` answers 404 while `/stats/:slug`
still returns the record's data with its visit count unchanged. -/
theorem C5_soft_delete (store : Store) (s : String) (hwf : wfStore store)
    (hs : ¬ s = "") :
    (∀ r, findOneBySlug store s = some r →
      deleteHandler store (some s) =
        (.deleted r.originalUrl,
         updateFirstBySlug store s (fun u => { u with isActive := false })) ∧
      findOneBySlug (deleteHandler store (some s)).2 s =
        some { r with isActive := false } ∧
      (redirectHandler (deleteHandler store (some s)).2 s).1 = .notFound ∧
      (∀ domain now, statsHandler (deleteHandler store (some s)).2 s domain now =
        .ok { originalUrl := r.originalUrl, shortSlug := r.shortSlug,
              shortUrl := domain ++ "/r/" ++ r.shortSlug, title := r.title,
              description := r.description, visits := r.visits, isActive := false,
              createdAt := r.createdAt,
              lastAccessed := if 0 < r.visits then some now else none })) ∧
    (findOneBySlug store s = none →
      deleteHandler store (some s) = (.notFound, store)) := by
  constructor
  · intro r h
    obtain ⟨h1, h2, h3, _, _, _⟩ := delete_hit hwf hs h
    refine ⟨h1, h2, ?_, ?_⟩
    · unfold redirectHandler
      rw [h3]
    · intro domain now
      unfold statsHandler
      rw [h2]
  · intro h
    exact delete_miss hs h

/-- Witness for C5 on a one-record store with 3 recorded visits: deletion
succeeds, the subsequent redirect misses, and stats still shows 3 visits. -/
theorem C5_soft_delete_witness :
    (deleteHandler
      [{ originalUrl := "https://example.com", shortSlug := "abc", title := "",
         description := "", visits := 3, createdAt := 0, isActive := true }]
      (some "abc")).1 = .deleted "https://example.com" ∧
    (redirectHandler (deleteHandler
      [{ originalUrl := "https://example.com", shortSlug := "abc", title := "",
         description := "", visits := 3, createdAt := 0, isActive := true }]
      (some "abc")).2 "abc").1 = .notFound ∧
    statsHandler (deleteHandler
      [{ originalUrl := "https://example.com", shortSlug := "abc", title := "",
         description := "", visits := 3, createdAt := 0, isActive := true }]
      (some "abc")).2 "abc" "https://nvsu.example" 99 =
      .ok { originalUrl := "https://example.com", shortSlug := "abc",
            shortUrl := "https://nvsu.example" ++ "/r/" ++ "abc", title := "",
            description := "", visits := 3, isActive := false, createdAt := 0,
            lastAccessed := some 99 } := by
  have h := (C5_soft_delete
    [{ originalUrl := "https://example.com", shortSlug := "abc", title := "",
       description := "", visits := 3, createdAt := 0, isActive := true }] "abc"
    (by decide) (by decide)).1
    { originalUrl := "https://example.com", shortSlug := "abc", title := "",
      description := "", visits := 3, createdAt := 0, isActive := true } rfl
  refine ⟨by rw [h.1], h.2.2.1, ?_⟩
  have hst := h.2.2.2 "https://nvsu.example" 99
  rw [hst]
  rfl

/-- C10: for every slug with an existing record, the `/stats/:slug` response
field `lastAccessed` is computed from the time the response is constructed
(`new Date()` in the handler, the parameter `now`) and the stored visit
count alone: it equals `now` whenever `visits > 0` and is `null` when
`visits = 0`.  No redirect timestamp is stored or consulted. -/
theorem C10_stats_lastAccessed (store : Store) (s domain : String) (now : Nat) :
    (∀ r, findOneBySlug store s = some r → 0 < r.visits →
      statsHandler store s domain now =
        .ok { originalUrl := r.originalUrl, shortSlug := r.shortSlug,
              shortUrl := domain ++ "/r/" ++ r.shortSlug, title := r.title,
              description := r.description, visits := r.visits,
              isActive := r.isActive, createdAt := r.createdAt,
              lastAccessed := some now }) ∧
    (∀ r, findOneBySlug store s = some r → r.visits = 0 →
      statsHandler store s domain now =
        .ok { originalUrl := r.originalUrl, shortSlug := r.shortSlug,
              shortUrl := domain ++ "/r/" ++ r.shortSlug, title := r.title,
              description := r.description, visits := r.visits,
              isActive := r.isActive, createdAt := r.createdAt,
              lastAccessed := none }) ∧
    (findOneBySlug store s = none → statsHandler store s domain now = .notFound) := by
  refine ⟨?_, ?_, ?_⟩
  · intro r h hv
    unfold statsHandler
    rw [h]
    dsimp only
    rw [if_pos hv]
  · intro r h hv
    unfold statsHandler
    rw [h]
    dsimp only
    rw [if_neg (by omega)]
  · intro h
    unfold statsHandler
    rw [h]

/-- Witness for C10: with 2 visits the response carries the construction
time 41; the same record re-queried at time 55 carries 55 — the field tracks
the response time, not any redirect. -/
theorem C10_stats_lastAccessed_witness :
    statsHandler
      [{ originalUrl := "https://example.com", shortSlug := "abc", title := "",
         description := "", visits := 2, createdAt := 0, isActive := true }]
      "abc" "https://nvsu.example" 41 =
      .ok { originalUrl := "https://example.com", shortSlug := "abc",
            shortUrl := "https://nvsu.example" ++ "/r/" ++ "abc", title := "",
            description := "", visits := 2, isActive := true, createdAt := 0,
            lastAccessed := some 41 } ∧
    statsHandler
      [{ originalUrl := "https://example.com", shortSlug := "abc", title := "",
         description := "", visits := 2, createdAt := 0, isActive := true }]
      "abc" "https://nvsu.example" 55 =
      .ok { originalUrl := "https://example.com", shortSlug := "abc",
            shortUrl := "https://nvsu.example" ++ "/r/" ++ "abc", title := "",
            description := "", visits := 2, isActive := true, createdAt := 0,
            lastAccessed := some 55 } := by
  constructor
  · exact (C10_stats_lastAccessed
      [{ originalUrl := "https://example.com", shortSlug := "abc", title := "",
         description := "", visits := 2, createdAt := 0, isActive := true }]
      "abc" "https://nvsu.example" 41).1
      { originalUrl := "https://example.com", shortSlug := "abc", title := "",
        description := "", visits := 2, createdAt := 0, isActive := true }
      rfl (by decide)
  · exact (C10_stats_lastAccessed
      [{ originalUrl := "https://example.com", shortSlug := "abc", title := "",
         description := "", visits := 2, createdAt := 0, isActive := true }]
      "abc" "https://nvsu.example" 55).1
      { originalUrl := "https://example.com", shortSlug := "abc", title := "",
        description := "", visits := 2, createdAt := 0, isActive := true }
      rfl (by decide)

/-- C3 counterexample: `new URL("mailto:test@example.com")` succeeds, so the
validator returns true, although the parsed URL has no host — the claim's
"scheme and host" criterion rejects it. -/
theorem C3_counterexample :
    validateUrl "mailto:test@example.com" = true ∧
    specValidUrl "mailto:test@example.com" = false := by
  constructor
  · rfl
  · rfl

/-- C3 (amended): the validator returns true iff the string parses as an
absolute URL having a scheme; a non-empty host is additionally guaranteed
exactly when the scheme is special non-file (http, https, ws, wss, ftp) —
for other schemes (mailto, data, javascript, …) no host is required.
Malformed strings (empty, scheme-less, garbage) are rejected, never
corrected. -/
theorem C3_validateUrl_characterisation :
    (∀ u : String, validateUrl u = true ↔
      ∃ sch host, parseURL u = some (sch, host) ∧
        (schemeRequiresHost sch = true → ∃ hst, host = some hst ∧ hst ≠ [])) ∧
    validateUrl "" = false ∧ validateUrl "example.com" = false ∧
    validateUrl "not a url" = false := by
  refine ⟨?_, rfl, rfl, rfl⟩
  intro u
  constructor
  · intro h
    unfold validateUrl at h
    cases hp : parseURL u with
    | none => rw [hp] at h; exact absurd h (by simp)
    | some pr =>
      obtain ⟨sch, host⟩ := pr
      exact ⟨sch, host, rfl, fun hreq => parseURLChars_requiresHost hp hreq⟩
  · rintro ⟨sch, host, hp, _⟩
    unfold validateUrl
    rw [hp]
    rfl

/-- Witness for the amended C3: a well-formed special-scheme URL is accepted
and parses with a scheme and a non-empty host. -/
theorem C3_validateUrl_characterisation_witness :
    validateUrl "https://example.com" = true ∧
    ∃ sch host, parseURL "https://example.com" = some (sch, host) ∧
      (schemeRequiresHost sch = true → ∃ hst, host = some hst ∧ hst ≠ []) := by
  refine ⟨rfl, ?_⟩
  exact (C3_validateUrl_characterisation.1 "https://example.com").mp rfl

/-- C4: generated-slug creation with a valid URL and no custom slug.
(a) The retry loop reads at most the first 5 generated candidates: the
outcome does not change if the generator is replaced beyond attempt 5.
(b) If all 5 candidates collide with existing slugs, the request fails with
500 `GenerationExhausted` and the store is unchanged.
(c) If attempt `k < 5` is the first fresh candidate, the record is inserted
with that slug — whose length lies in [5, 8] and whose characters are drawn
from the URL-safe alphabet — and it is immediately retrievable through the
redirect resolver, which 301-redirects to the stored URL.  The generator is
`generateSlug` itself, fed by the explicit random draws `lenDraw`/`draw`. -/
theorem C4_generated_creation (store : Store) (u : String)
    (title desc : Option String) (lenDraw : Nat → Nat) (draw : Nat → Nat → Nat)
    (now : Nat) (hu : ¬ u = "") (huv : validateUrl u = true) :
    (∀ gen2 : Nat → String,
      (∀ k, k < 5 → generateSlug (lenDraw k) (draw k) = gen2 k) →
      createHandler store (some u) none title desc
          (fun k => generateSlug (lenDraw k) (draw k)) now =
        createHandler store (some u) none title desc gen2 now) ∧
    ((∀ k, k < 5 →
        (findOneBySlug store (generateSlug (lenDraw k) (draw k))).isSome = true) →
      createHandler store (some u) none title desc
          (fun k => generateSlug (lenDraw k) (draw k)) now =
        (.generationExhausted, store)) ∧
    (∀ k, k < 5 →
      (∀ j, j < k →
        (findOneBySlug store (generateSlug (lenDraw j) (draw j))).isSome = true) →
      (findOneBySlug store (generateSlug (lenDraw k) (draw k))).isSome = false →
      createHandler store (some u) none title desc
          (fun k => generateSlug (lenDraw k) (draw k)) now =
        (.created (generateSlug (lenDraw k) (draw k)),
         store ++ [mkUrlRecord u (generateSlug (lenDraw k) (draw k))
           (optOrEmpty title) (optOrEmpty desc) now]) ∧
      5 ≤ (generateSlug (lenDraw k) (draw k)).length ∧
      (generateSlug (lenDraw k) (draw k)).length ≤ 8 ∧
      (generateSlug (lenDraw k) (draw k)).data.all isSlugChar = true ∧
      findOneActive
          (store ++ [mkUrlRecord u (generateSlug (lenDraw k) (draw k))
            (optOrEmpty title) (optOrEmpty desc) now])
          (generateSlug (lenDraw k) (draw k)) =
        some (mkUrlRecord u (generateSlug (lenDraw k) (draw k))
          (optOrEmpty title) (optOrEmpty desc) now) ∧
      (redirectHandler
          (store ++ [mkUrlRecord u (generateSlug (lenDraw k) (draw k))
            (optOrEmpty title) (optOrEmpty desc) now])
          (generateSlug (lenDraw k) (draw k))).1 = .moved (jsTrim u)) := by
  refine ⟨?_, ?_, ?_⟩
  · intro gen2 hg
    rw [createHandler_generated hu huv, createHandler_generated hu huv]
    have hcongr : genLoop5 store (fun k => generateSlug (lenDraw k) (draw k))
        = genLoop5 store gen2 := by
      unfold genLoop5
      exact genLoopAux_congr 5 0 (fun j hj => by
        have := hg j (by omega)
        simpa using this)
    rw [hcongr]
  · intro hall
    rw [createHandler_generated hu huv]
    have hnone : genLoop5 store (fun k => generateSlug (lenDraw k) (draw k)) = none := by
      unfold genLoop5
      exact genLoopAux_none 5 0 (fun j hj => by
        have := hall j (by omega)
        simpa using this)
    rw [hnone]
  · intro k hk hcoll hfresh
    have hsome : genLoop5 store (fun k => generateSlug (lenDraw k) (draw k))
        = some (generateSlug (lenDraw k) (draw k)) := by
      unfold genLoop5
      have := genLoopAux_some 5 0 k hk
        (fun j hj => by
          have := hcoll j hj
          simpa using this)
        (by simpa using hfresh)
      simpa using this
    have hchars := generateSlug_chars (lenDraw k) (draw k)
    have hlen := generateSlug_length (lenDraw k) (draw k)
    have hslugtrim : jsTrim (generateSlug (lenDraw k) (draw k))
        = generateSlug (lenDraw k) (draw k) :=
      jsTrim_of_slug_safe (List.all_eq_true.mp hchars)
    have hmkslug : (mkUrlRecord u (generateSlug (lenDraw k) (draw k))
        (optOrEmpty title) (optOrEmpty desc) now).shortSlug
        = generateSlug (lenDraw k) (draw k) := by
      unfold mkUrlRecord
      exact hslugtrim
    have hhandler : createHandler store (some u) none title desc
        (fun k => generateSlug (lenDraw k) (draw k)) now =
        (.created (generateSlug (lenDraw k) (draw k)),
         store ++ [mkUrlRecord u (generateSlug (lenDraw k) (draw k))
           (optOrEmpty title) (optOrEmpty desc) now]) := by
      rw [createHandler_generated hu huv, hsome]
    have hstorenone : findOneBySlug store (generateSlug (lenDraw k) (draw k)) = none := by
      cases hx : findOneBySlug store (generateSlug (lenDraw k) (draw k)) with
      | none => rfl
      | some _ => rw [hx] at hfresh; exact absurd hfresh (by simp)
    have hfindnew : findOneActive
        (store ++ [mkUrlRecord u (generateSlug (lenDraw k) (draw k))
          (optOrEmpty title) (optOrEmpty desc) now])
        (generateSlug (lenDraw k) (draw k)) =
        some (mkUrlRecord u (generateSlug (lenDraw k) (draw k))
          (optOrEmpty title) (optOrEmpty desc) now) := by
      unfold findOneActive
      have hpref : ∀ x ∈ store,
          (x.shortSlug == generateSlug (lenDraw k) (draw k) && x.isActive) = false := by
        intro x hx
        have := List.find?_eq_none.mp hstorenone x hx
        have hb : (x.shortSlug == generateSlug (lenDraw k) (draw k)) = false := by
          cases hbb : x.shortSlug == generateSlug (lenDraw k) (draw k) with
          | false => rfl
          | true => exact absurd hbb this
        rw [hb]
        rfl
      rw [find?_prefix_false hpref]
      have hq : ((mkUrlRecord u (generateSlug (lenDraw k) (draw k))
          (optOrEmpty title) (optOrEmpty desc) now).shortSlug ==
            generateSlug (lenDraw k) (draw k) &&
          (mkUrlRecord u (generateSlug (lenDraw k) (draw k))
            (optOrEmpty title) (optOrEmpty desc) now).isActive) = true := by
        rw [hmkslug]
        simp [mkUrlRecord]
      simp [List.find?_cons, hq]
    refine ⟨hhandler, hlen.1, hlen.2, hchars, hfindnew, ?_⟩
    unfold redirectHandler
    rw [hfindnew]
    rfl

/-- Witness for C4 at the empty store with fixed draws: the first candidate
`"uuuuu"` is fresh, the record is created, and the new short link redirects
to the submitted URL. -/
theorem C4_generated_creation_witness :
    createHandler [] (some "https://example.com") none none none
      (fun k => generateSlug ((fun _ => 0) k) ((fun _ _ => 0) k)) 0 =
      (.created (generateSlug 0 (fun _ => 0)),
       [] ++ [mkUrlRecord "https://example.com" (generateSlug 0 (fun _ => 0))
         (optOrEmpty none) (optOrEmpty none) 0]) ∧
    (redirectHandler
      ([] ++ [mkUrlRecord "https://example.com" (generateSlug 0 (fun _ => 0))
        (optOrEmpty none) (optOrEmpty none) 0])
      (generateSlug 0 (fun _ => 0))).1 = .moved (jsTrim "https://example.com") := by
  have h := (C4_generated_creation [] "https://example.com" none none
    (fun _ => 0) (fun _ _ => 0) 0 (by decide) rfl).2.2 0 (by omega)
    (fun j hj => absurd hj (by omega)) rfl
  exact ⟨h.1, h.2.2.2.2.2⟩

/-- Pointwise record invariant of an in-place update whose function keeps
the slug and `createdAt`, never lowers `visits`, and never re-activates. -/
theorem updateFirstP_invariant {p : UrlRecord → Bool} {f : UrlRecord → UrlRecord}
    (hslug : ∀ x, (f x).shortSlug = x.shortSlug)
    (hvis : ∀ x, x.visits ≤ (f x).visits)
    (hact : ∀ x, (f x).isActive = true → x.isActive = true)
    (hcreated : ∀ x, (f x).createdAt = x.createdAt) :
    ∀ (l : Store) (i : Nat) (r r2 : UrlRecord), l.get? i = some r →
      (updateFirstP p f l).get? i = some r2 →
      r2.shortSlug = r.shortSlug ∧ r.visits ≤ r2.visits ∧
      (r2.isActive = true → r.isActive = true) ∧ r2.createdAt = r.createdAt := by
  intro l i r r2 h1 h2
  rcases updateFirstP_get? l i with hsame | ⟨rr, hrr, _, hnew⟩
  · rw [h1, h2] at hsame
    have h3 : r2 = r := by injection hsame
    subst h3
    exact ⟨rfl, Nat.le_refl _, fun h => h, rfl⟩
  · rw [h1] at hrr
    have hr : r = rr := by injection hrr
    subst hr
    rw [h2] at hnew
    have hr2 : r2 = f r := by injection hnew
    subst hr2
    exact ⟨hslug r, hvis r, hact r, hcreated r⟩

/-- C6: across create, redirect, soft-delete, listing and stats, every
pre-existing record keeps its slug and `createdAt`, its `visits` never
decreases, and `isActive` transitions only from true to false; no operation
shortens the store, and a record appearing beyond the old length can only
come from a creation, which stamps `createdAt` with the current time and
initialises `visits = 0`, `isActive = true`. -/
theorem C6_invariants (store : Store) (op : Op) :
    store.length ≤ (applyOp store op).length ∧
    (∀ i r r2, store.get? i = some r → (applyOp store op).get? i = some r2 →
      r2.shortSlug = r.shortSlug ∧ r.visits ≤ r2.visits ∧
      (r2.isActive = true → r.isActive = true) ∧ r2.createdAt = r.createdAt) ∧
    (∀ i r2, store.length ≤ i → (applyOp store op).get? i = some r2 →
      ∃ url sp title desc gen now2, op = .createOp url sp title desc gen now2 ∧
        r2.createdAt = now2 ∧ r2.visits = 0 ∧ r2.isActive = true) := by
  cases op with
  | createOp url sp title desc gen now2 =>
    simp only [applyOp]
    rcases createHandler_store_cases store url sp title desc gen now2 with hc | ⟨u2, s2, hc⟩
    · rw [hc]
      refine ⟨Nat.le_refl _, ?_, ?_⟩
      · intro i r r2 h1 h2
        rw [h1] at h2
        have h3 : r = r2 := by injection h2
        subst h3
        exact ⟨rfl, Nat.le_refl _, fun h => h, rfl⟩
      · intro i r2 hi h2
        rw [List.get?_eq_none.mpr hi] at h2
        exact absurd h2 (by simp)
    · rw [hc]
      refine ⟨by simp, ?_, ?_⟩
      · intro i r r2 h1 h2
        have hi : i < store.length := by
          by_contra hcon
          rw [List.get?_eq_none.mpr (by omega)] at h1
          exact absurd h1 (by simp)
        rw [getq_append, if_pos hi, h1] at h2
        have h3 : r = r2 := by injection h2
        subst h3
        exact ⟨rfl, Nat.le_refl _, fun h => h, rfl⟩
      · intro i r2 hi h2
        rw [getq_append, if_neg (by omega)] at h2
        cases hd : i - store.length with
        | zero =>
          rw [hd] at h2
          have h3 : mkUrlRecord u2 s2 (optOrEmpty title) (optOrEmpty desc) now2 = r2 := by
            injection h2
          refine ⟨url, sp, title, desc, gen, now2, rfl, ?_, ?_, ?_⟩ <;>
            rw [← h3] <;> rfl
        | succ m =>
          rw [hd] at h2
          have h4 : ([mkUrlRecord u2 s2 (optOrEmpty title) (optOrEmpty desc) now2].get?
              (m + 1)) = none := by
            apply List.get?_eq_none.mpr
            simp
          rw [h4] at h2
          exact absurd h2 (by simp)
  | redirectOp s =>
    simp only [applyOp]
    cases hf : findOneActive store s with
    | none =>
      have hsame : (redirectHandler store s).2 = store := by
        unfold redirectHandler
        rw [hf]
      rw [hsame]
      refine ⟨Nat.le_refl _, ?_, ?_⟩
      · intro i r r2 h1 h2
        rw [h1] at h2
        have h3 : r = r2 := by injection h2
        subst h3
        exact ⟨rfl, Nat.le_refl _, fun h => h, rfl⟩
      · intro i r2 hi h2
        rw [List.get?_eq_none.mpr hi] at h2
        exact absurd h2 (by simp)
    | some r0 =>
      have hupd : (redirectHandler store s).2 =
          updateFirstP (fun x => x.shortSlug == s && x.isActive)
            (fun x => { x with visits := x.visits + 1 }) store := by
        unfold redirectHandler
        rw [hf]
        rfl
      rw [hupd]
      refine ⟨by rw [updateFirstP_length], ?_, ?_⟩
      · exact @updateFirstP_invariant (fun x => x.shortSlug == s && x.isActive)
          (fun x => { x with visits := x.visits + 1 })
          (fun x => rfl) (fun x => Nat.le_succ _) (fun x h => h) (fun x => rfl) store
      · intro i r2 hi h2
        rw [List.get?_eq_none.mpr (by rw [updateFirstP_length]; omega)] at h2
        exact absurd h2 (by simp)
  | deleteOp sp =>
    simp only [applyOp]
    have hcases : (deleteHandler store sp).2 = store ∨
        (deleteHandler store sp).2 =
          updateFirstP (fun x => x.shortSlug == (sp.getD ""))
            (fun x => { x with isActive := false }) store := by
      unfold deleteHandler
      split
      · left; rfl
      · cases hf : findOneBySlug store (sp.getD "") with
        | none => left; rfl
        | some r0 => right; rfl
    rcases hcases with hc | hc <;> rw [hc]
    · refine ⟨Nat.le_refl _, ?_, ?_⟩
      · intro i r r2 h1 h2
        rw [h1] at h2
        have h3 : r = r2 := by injection h2
        subst h3
        exact ⟨rfl, Nat.le_refl _, fun h => h, rfl⟩
      · intro i r2 hi h2
        rw [List.get?_eq_none.mpr hi] at h2
        exact absurd h2 (by simp)
    · refine ⟨by rw [updateFirstP_length], ?_, ?_⟩
      · exact @updateFirstP_invariant (fun x => x.shortSlug == sp.getD "")
          (fun x => { x with isActive := false })
          (fun x => rfl) (fun x => Nat.le_refl _)
          (fun x h => absurd h Bool.false_ne_true) (fun x => rfl) store
      · intro i r2 hi h2
        rw [List.get?_eq_none.mpr (by rw [updateFirstP_length]; omega)] at h2
        exact absurd h2 (by simp)
  | listingOp adminKey secret page limit sortField order search active =>
    simp only [applyOp]
    refine ⟨Nat.le_refl _, ?_, ?_⟩
    · intro i r r2 h1 h2
      rw [h1] at h2
      have h3 : r = r2 := by injection h2
      subst h3
      exact ⟨rfl, Nat.le_refl _, fun h => h, rfl⟩
    · intro i r2 hi h2
      rw [List.get?_eq_none.mpr hi] at h2
      exact absurd h2 (by simp)
  | statsOp s domain now2 =>
    simp only [applyOp]
    refine ⟨Nat.le_refl _, ?_, ?_⟩
    · intro i r r2 h1 h2
      rw [h1] at h2
      have h3 : r = r2 := by injection h2
      subst h3
      exact ⟨rfl, Nat.le_refl _, fun h => h, rfl⟩
    · intro i r2 hi h2
      rw [List.get?_eq_none.mpr hi] at h2
      exact absurd h2 (by simp)

/-- Witness for C6: one redirect on a concrete one-record store preserves
slug and `createdAt`, does not lower `visits`, and does not re-activate. -/
theorem C6_invariants_witness :
    (applyOp
      [{ originalUrl := "https://example.com", shortSlug := "abc", title := "",
         description := "", visits := 0, createdAt := 7, isActive := true }]
      (.redirectOp "abc")).get? 0 =
      some { originalUrl := "https://example.com", shortSlug := "abc", title := "",
             description := "", visits := 1, createdAt := 7, isActive := true } ∧
    (({ originalUrl := "https://example.com", shortSlug := "abc", title := "",
        description := "", visits := 1, createdAt := 7, isActive := true } :
          UrlRecord).shortSlug =
      ({ originalUrl := "https://example.com", shortSlug := "abc", title := "",
         description := "", visits := 0, createdAt := 7, isActive := true } :
          UrlRecord).shortSlug ∧
      ({ originalUrl := "https://example.com", shortSlug := "abc", title := "",
         description := "", visits := 0, createdAt := 7, isActive := true } :
          UrlRecord).visits ≤
      ({ originalUrl := "https://example.com", shortSlug := "abc", title := "",
         description := "", visits := 1, createdAt := 7, isActive := true } :
          UrlRecord).visits ∧
      (({ originalUrl := "https://example.com", shortSlug := "abc", title := "",
          description := "", visits := 1, createdAt := 7, isActive := true } :
            UrlRecord).isActive = true →
        ({ originalUrl := "https://example.com", shortSlug := "abc", title := "",
           description := "", visits := 0, createdAt := 7, isActive := true } :
             UrlRecord).isActive = true) ∧
      ({ originalUrl := "https://example.com", shortSlug := "abc", title := "",
         description := "", visits := 1, createdAt := 7, isActive := true } :
           UrlRecord).createdAt =
      ({ originalUrl := "https://example.com", shortSlug := "abc", title := "",
         description := "", visits := 0, createdAt := 7, isActive := true } :
           UrlRecord).createdAt) := by
  refine ⟨rfl, ?_⟩
  exact (C6_invariants
    [{ originalUrl := "https://example.com", shortSlug := "abc", title := "",
       description := "", visits := 0, createdAt := 7, isActive := true }]
    (.redirectOp "abc")).2.1 0
    { originalUrl := "https://example.com", shortSlug := "abc", title := "",
      description := "", visits := 0, createdAt := 7, isActive := true }
    { originalUrl := "https://example.com", shortSlug := "abc", title := "",
      description := "", visits := 1, createdAt := 7, isActive := true }
    rfl rfl

theorem specMatches_nil (r : UrlRecord) : specMatches "" r = true := by
  unfold specMatches
  rw [containsCI_nil_left]
  rfl

/-- For a metacharacter-free search string, the query's regex clause agrees
with literal case-insensitive substring containment on active records. -/
theorem linksQuery_spec (q : String) (hq : ∀ c ∈ q.data, isRegexMeta c = false)
    (r : UrlRecord) : linksQuery q "true" r = (r.isActive && specMatches q r) := by
  by_cases hq0 : q = ""
  · subst hq0
    show ((r.isActive == true) && true) = (r.isActive && specMatches "" r)
    rw [specMatches_nil]
    cases r.isActive <;> rfl
  · have hq1 : (q == "") = false := beq_eq_false_iff_ne.mpr hq0
    show ((r.isActive == true) &&
        (if (q == "") = true then true else matchesSearch q r)) = _
    rw [hq1]
    simp only [Bool.false_eq_true, if_false]
    rw [matchesSearch_litOnly q r hq]
    cases r.isActive <;> rfl

/-- C7 counterexample: with search string `"."` (a regex wildcard) the
listing returns a record none of whose fields contains a literal `"."`:
`$regex` pattern-matches the search string instead of treating it as a
literal substring. -/
theorem C7_counterexample :
    linksdataHandler
      [{ originalUrl := "x", shortSlug := "abc", title := "", description := "",
         visits := 0, createdAt := 0, isActive := true }]
      (some "k") "k" 1 100 "createdAt" "desc" "." "true" =
      .ok { urls := [{ originalUrl := "x", shortSlug := "abc", title := "",
                       description := "", visits := 0, createdAt := 0, isActive := true }],
            page := 1, limit := 100, total := 1, totalPages := 1, totalUrls := 1,
            activeUrls := 1, inactiveUrls := 0, totalVisits := 0 } ∧
    specMatches "."
      { originalUrl := "x", shortSlug := "abc", title := "", description := "",
        visits := 0, createdAt := 0, isActive := true } = false := by
  constructor
  · rfl
  · rfl

/-- C7 (amended): the `/linksdata` search interprets `q` as a
case-insensitive regular expression over `originalUrl`, `shortSlug`,
`title` and `description`, not as a literal substring.  For a search string
free of regex metacharacters the two coincide: restricted to such `q`
(page 1 and a limit covering the store), the listing returns exactly the
active records one of whose four fields case-insensitively contains `q`
literally, and counts them as `total`. -/
theorem C7_search_literal (store : Store) (q secret sortField order : String)
    (limit : Nat) (hsecret : ¬ secret = "")
    (hq : ∀ c ∈ q.data, isRegexMeta c = false)
    (hlim : store.length ≤ limit) :
    ∃ resp, linksdataHandler store (some secret) secret 1 limit sortField order
        q "true" = .ok resp ∧
      (∀ r, r ∈ resp.urls ↔ r ∈ store ∧ r.isActive = true ∧ specMatches q r = true) ∧
      resp.total = (store.filter (fun x => x.isActive && specMatches q x)).length := by
  have hauth : requireAdmin (some secret) secret = .pass := by
    unfold requireAdmin
    dsimp only
    rw [beq_eq_false_iff_ne.mpr hsecret]
    simp
  unfold linksdataHandler
  rw [hauth]
  refine ⟨_, rfl, ?_, ?_⟩
  · intro r
    dsimp only
    have hz : (1 - 1) * limit = 0 := by omega
    rw [hz, List.drop_zero]
    have hlen2 : (sortRecords (ordLe sortField (order == "desc"))
        (store.filter (linksQuery q "true"))).length ≤ limit := by
      rw [length_sortRecords]
      have := List.length_filter_le (linksQuery q "true") store
      omega
    rw [List.take_of_length_le hlen2]
    rw [mem_sortRecords, List.mem_filter, linksQuery_spec q hq r]
    rw [Bool.and_eq_true]
  · dsimp only
    rw [List.filter_congr (fun x _ => linksQuery_spec q hq x)]

/-- Witness for the amended C7: searching `"foo"` over a two-record store
returns exactly the active record whose title contains `"Foo"`. -/
theorem C7_search_literal_witness :
    ∃ resp, linksdataHandler
      [{ originalUrl := "https://a.example", shortSlug := "one", title := "Foo Bar",
         description := "", visits := 0, createdAt := 0, isActive := true },
       { originalUrl := "https://b.example", shortSlug := "two", title := "baz",
         description := "", visits := 0, createdAt := 1, isActive := true }]
      (some "k") "k" 1 2 "createdAt" "desc" "foo" "true" = .ok resp ∧
      (∀ r, r ∈ resp.urls ↔
        r ∈ [{ originalUrl := "https://a.example", shortSlug := "one",
               title := "Foo Bar", description := "", visits := 0, createdAt := 0,
               isActive := true },
             { originalUrl := "https://b.example", shortSlug := "two",
               title := "baz", description := "", visits := 0, createdAt := 1,
               isActive := true }] ∧
          r.isActive = true ∧ specMatches "foo" r = true) ∧
      resp.total =
        (([{ originalUrl := "https://a.example", shortSlug := "one",
             title := "Foo Bar", description := "", visits := 0, createdAt := 0,
             isActive := true },
           { originalUrl := "https://b.example", shortSlug := "two",
             title := "baz", description := "", visits := 0, createdAt := 1,
             isActive := true }] : Store).filter
          (fun x => x.isActive && specMatches "foo" x)).length :=
  C7_search_literal
    [{ originalUrl := "https://a.example", shortSlug := "one", title := "Foo Bar",
       description := "", visits := 0, createdAt := 0, isActive := true },
     { originalUrl := "https://b.example", shortSlug := "two", title := "baz",
       description := "", visits := 0, createdAt := 1, isActive := true }]
    "foo" "k" "createdAt" "desc" 2 (by decide) (by decide) (by decide)

/-- C8 counterexample: a request carrying `adminKey=` (the empty string),
which differs from the configured secret `"sekrit"`, is answered 401 — not
the 403 the claim prescribes for every differing key — because the
middleware's falsiness check catches the empty string first. -/
theorem C8_counterexample :
    linksdataHandler [] (some "") "sekrit" 1 100 "createdAt" "desc" "" "true" =
      .unauthorized ∧
    ¬ ("" = "sekrit") ∧
    (AdminResult.unauthorized ≠ AdminResult.forbidden) := by
  refine ⟨rfl, by decide, by decide⟩

/-- C8 (amended): `/linksdata` without an `adminKey` — or with an empty one,
which the falsy check treats the same as missing — is answered 401; a
non-empty key differing from the secret is answered 403; the correct
non-empty key yields a page of at most `limit` records whose `j`-th entry is
entry `(page−1)·limit + j` of the sorted filtered listing, with `totalPages`
the ceiling of `total/limit` (the least `m` with `total ≤ m·limit`). -/
theorem C8_admin_pagination (store : Store)
    (secret sortField order search active : String) (page limit : Nat)
    (_hp : 1 ≤ page) (hl : 1 ≤ limit) (hsecret : ¬ secret = "") :
    linksdataHandler store none secret page limit sortField order search active =
      .unauthorized ∧
    linksdataHandler store (some "") secret page limit sortField order search active =
      .unauthorized ∧
    (∀ k, ¬ k = "" → ¬ k = secret →
      linksdataHandler store (some k) secret page limit sortField order search active =
        .forbidden) ∧
    (∃ resp, linksdataHandler store (some secret) secret page limit sortField order
        search active = .ok resp ∧
      resp.urls.length ≤ limit ∧
      (∀ j, j < resp.urls.length →
        resp.urls.get? j =
          (sortRecords (ordLe sortField (order == "desc"))
            (store.filter (linksQuery search active))).get? ((page - 1) * limit + j)) ∧
      resp.total = (store.filter (linksQuery search active)).length ∧
      resp.total ≤ resp.totalPages * limit ∧
      (∀ m, resp.total ≤ m * limit → resp.totalPages ≤ m)) := by
  refine ⟨rfl, rfl, ?_, ?_⟩
  · intro k hk1 hk2
    unfold linksdataHandler requireAdmin
    dsimp only
    rw [beq_eq_false_iff_ne.mpr hk1, beq_eq_false_iff_ne.mpr hk2]
    rfl
  · have hauth : requireAdmin (some secret) secret = .pass := by
      unfold requireAdmin
      dsimp only
      rw [beq_eq_false_iff_ne.mpr hsecret]
      simp
    unfold linksdataHandler
    rw [hauth]
    refine ⟨_, rfl, ?_, ?_, rfl, ?_, ?_⟩
    · dsimp only
      rw [List.length_take]
      exact Nat.min_le_left _ _
    · intro j hj
      dsimp only at hj ⊢
      rw [List.length_take] at hj
      have hjl : j < limit := by
        have := Nat.min_le_left limit
          (((sortRecords (ordLe sortField (order == "desc"))
            (store.filter (linksQuery search active))).drop
              ((page - 1) * limit)).length)
        omega
      rw [getq_take _ limit j hjl, getq_drop]
    · exact (ceil_div_spec _ limit hl).1
    · exact (ceil_div_spec _ limit hl).2

/-- Witness for the amended C8: at concrete inputs the missing key is
answered 401 and a wrong non-empty key 403. -/
theorem C8_admin_pagination_witness :
    linksdataHandler [] none "sekrit" 1 1 "createdAt" "desc" "" "true" =
      .unauthorized ∧
    linksdataHandler [] (some "wrong") "sekrit" 1 1 "createdAt" "desc" "" "true" =
      .forbidden := by
  have h := C8_admin_pagination [] "sekrit" "createdAt" "desc" "" "true" 1 1
    (by decide) (by decide) (by decide)
  exact ⟨h.1, h.2.2.1 "wrong" (by decide) (by decide)⟩

/-- C9 counterexample: two complete concurrent redirects for the same slug,
interleaved read-read-write-write, leave `visits = 1` on a record that
started at 0 — one update is lost, because the increment is an
application-level read-modify-write rather than a storage-level atomic
increment.  The claim's `N = 2` prediction of `0 + 2` fails. -/
theorem C9_counterexample :
    runTwo "abc" [false, true, false, true]
      (.start, .start,
       [{ originalUrl := "https://example.com", shortSlug := "abc", title := "",
          description := "", visits := 0, createdAt := 0, isActive := true }]) =
      (.finished, .finished,
       [{ originalUrl := "https://example.com", shortSlug := "abc", title := "",
          description := "", visits := 1, createdAt := 0, isActive := true }]) ∧
    (1 : Nat) ≠ 0 + 2 := by
  refine ⟨rfl, by decide⟩

/-- C9 (amended): the visit increment is a document read followed by a
write-back of the read value plus one (`visits += 1; save()`), not an atomic
storage-layer increment.  Sequential, non-overlapping redirects therefore
add exactly 1 each — N sequential redirects to an active slug raise its
visits by exactly N — while overlapping schedules can lose updates, as the
counterexample shows. -/
theorem C9_sequential_increment (s : String) :
    ∀ (n : Nat) (store : Store) (r : UrlRecord), wfStore store →
      findOneBySlug store s = some r → r.isActive = true →
      findOneBySlug (iterRedirect s store n) s =
        some { r with visits := r.visits + n } := by
  intro n
  induction n with
  | zero =>
    intro store r _ h _
    exact h
  | succ m ih =>
    intro store r hwf h ha
    obtain ⟨_, h2, _, _, _, h6⟩ := redirect_hit hwf h ha
    show findOneBySlug (iterRedirect s (redirectHandler store s).2 m) s = _
    have hstep := ih (redirectHandler store s).2 { r with visits := r.visits + 1 } h6 h2 ha
    rw [hstep]
    show some ({ r with visits := r.visits + 1 + m } : UrlRecord) = _
    rw [show r.visits + 1 + m = r.visits + (m + 1) from by omega]

/-- Witness for the amended C9: three sequential redirects on a fresh record
leave exactly 3 visits. -/
theorem C9_sequential_increment_witness :
    findOneBySlug
      (iterRedirect "abc"
        [{ originalUrl := "https://example.com", shortSlug := "abc", title := "",
           description := "", visits := 0, createdAt := 0, isActive := true }] 3)
      "abc" =
      some { originalUrl := "https://example.com", shortSlug := "abc", title := "",
             description := "", visits := 3, createdAt := 0, isActive := true } :=
  C9_sequential_increment "abc" 3
    [{ originalUrl := "https://example.com", shortSlug := "abc", title := "",
       description := "", visits := 0, createdAt := 0, isActive := true }]
    { originalUrl := "https://example.com", shortSlug := "abc", title := "",
      description := "", visits := 0, createdAt := 0, isActive := true }
    (by decide) rfl rfl

end NvSU
